import Mathlib

/-!
Verification of the LuxScribe Studio citation-resolution subsystem and the
frontend research flow.

Part A embeds the frontend research handler from
`src/hooks/useKeyboardShortcuts.ts` (the `handleResearchQuery` closure of
`useChatThreads`) together with the `ErrorHandler.withRetry` combinator from
`src/utils/errorHandler.ts`.

Part B embeds the Citation Resolution Engine.  The backend Python sources
(`app/services/courtlistener.py`, `app/services/citation_handler.py`) are not
part of the repository snapshot; only their documentation
(`backend/COURTLISTENER_INTEGRATION.md`) is.  Every definition of Part B is
therefore modelled from the specification of the engine, faithful to its
wording, and the theorems settle the claims against that model.
-/

namespace LuxScribe

/-! ## Part A: frontend research flow -/

/-- Role of a chat message sender, from the `ChatMessage` interface in
`src/types/chat.ts`, whose role field is the union of the user and assistant
string literals. -/
inductive Role
  | user
  | assistant
deriving DecidableEq

/-- A chat message, from the `ChatMessage` interface in `src/types/chat.ts`.
The `id` and `timestamp` fields are produced from `Date.now()` at creation
time; they carry no logic and are omitted from the model. -/
structure ChatMessage where
  role : Role
  content : String
deriving DecidableEq

/-- Outcome of one `fetch(appConfig.api.search, ...)` round trip as observed by
the `try` block of `handleResearchQuery`: the fetch promise may reject, the
response may be non-ok, reading or using the JSON body may throw, or the body
may parse into usable research data. -/
inductive FetchOutcome
  | networkError
  | httpError (status : Nat)
  | okMalformed
  | okData (totalResults : Nat) (sources : List String)
deriving DecidableEq

/-- The JavaScript exceptions that can escape the statements of the `try`
block of `handleResearchQuery` before its `catch` clause absorbs them. -/
inductive JsError
  | fetchFailed
  | researchQueryFailed
  | malformedResponse
deriving DecidableEq

/-- Body of the POST request issued by `handleResearchQuery`:
`JSON.stringify({ query: query, max_results: 10 })`. -/
structure ResearchRequest where
  query : String
  max_results : Nat
deriving DecidableEq

/-- The `maxRetries` argument at the call site `}, 2, 1500)` of
`ErrorHandler.withRetry` inside `handleResearchQuery`. -/
def researchMaxRetries : Nat := 2

/-- The `delay` argument (milliseconds) at the call site `}, 2, 1500)` of
`ErrorHandler.withRetry` inside `handleResearchQuery`.  The delay only feeds a
`setTimeout` sleep between attempts and has no further observable effect. -/
def researchRetryDelayMs : Nat := 1500

/-- The fixed `max_results: 10` field of the research request body. -/
def researchMaxResults : Nat := 10

/-- The success message built by `handleResearchQuery` from the parsed
research data (`researchData.total_results`, `researchData.sources`).
The JavaScript array join with the separator " and " is
`String.intercalate " and "`. -/
def aiMessageFor (q : String) (totalResults : Nat) (sources : List String) : ChatMessage :=
  { role := Role.assistant
    content := "Research completed for \"" ++ q ++ "\". Found " ++ toString totalResults
      ++ " relevant cases from " ++ String.intercalate " and " sources
      ++ ". A new document has been created with the full results in your Research folder." }

/-- The error message built in the `catch` clause of `handleResearchQuery`. -/
def researchErrorMessage (q : String) : ChatMessage :=
  { role := Role.assistant
    content := "Sorry, I encountered an error while researching \"" ++ q
      ++ "\". Please try again." }

/-- The `try` block of `handleResearchQuery`: a rejected fetch, a non-ok
response (which triggers the thrown research-query-failed `Error`), and
malformed response data each raise; good data flows through
`createResearchFolder` and `createResearchDocument` (whose storage calls are
commented out in the source, so they cannot throw) into the success message. -/
def researchTryBody (q : String) (o : FetchOutcome) : Except JsError ChatMessage :=
  match o with
  | FetchOutcome.networkError => Except.error JsError.fetchFailed
  | FetchOutcome.httpError _ => Except.error JsError.researchQueryFailed
  | FetchOutcome.okMalformed => Except.error JsError.malformedResponse
  | FetchOutcome.okData n srcs => Except.ok (aiMessageFor q n srcs)

/-- One full attempt of the closure passed to `ErrorHandler.withRetry`: the
`try` block followed by the `catch` clause, which logs via
`ErrorHandler.handleResearchError` (non-throwing) and returns the error
message instead of rethrowing. -/
def researchAttempt (q : String) (o : FetchOutcome) : ChatMessage :=
  match researchTryBody q o with
  | Except.ok m => m
  | Except.error _ => researchErrorMessage q

/-- The operation handed to `withRetry` by `handleResearchQuery`, indexed by
attempt number.  Each invocation issues exactly one POST with body
`{ query, max_results: 10 }`; the returned promise always fulfills because the
closure catches its own errors. -/
def researchOp (q : String) (env : Nat → FetchOutcome) (k : Nat) :
    ResearchRequest × Except JsError ChatMessage :=
  ({ query := q, max_results := researchMaxResults },
    Except.ok (researchAttempt q (env k)))

/-- `ErrorHandler.withRetry` from `src/utils/errorHandler.ts`, instrumented
with the list of requests issued.  The source loops
`for (attempt = 1; attempt <= maxRetries; attempt++)`: it returns the first
fulfilled result, rethrows the last error when `attempt === maxRetries`, and
with `maxRetries = 0` falls through the loop and throws the undefined
`lastError` (modelled by the `Option` in the error type).  The inter-attempt
`setTimeout` sleep is unobservable and not modelled. -/
def withRetryTraced (op : Nat → ResearchRequest × Except JsError ChatMessage) :
    Nat → Nat → Option JsError → Except (Option JsError) ChatMessage × List ResearchRequest
  | 0, _, last => (Except.error last, [])
  | n + 1, k, _ =>
    match op k with
    | (req, Except.ok v) => (Except.ok v, [req])
    | (req, Except.error e) =>
      if n = 0 then (Except.error (some e), [req])
      else
        let rest := withRetryTraced op n (k + 1) (some e)
        (rest.1, req :: rest.2)

/-- `handleResearchQuery` from `src/hooks/useKeyboardShortcuts.ts`: the whole
research closure wrapped in `ErrorHandler.withRetry(..., 2, 1500)`.  The
environment `env` gives the outcome of the fetch issued by attempt `k`.
Returns the settled promise value and the list of issued requests. -/
def handleResearchQuery (q : String) (env : Nat → FetchOutcome) :
    Except (Option JsError) ChatMessage × List ResearchRequest :=
  withRetryTraced (researchOp q env) researchMaxRetries 0 none

/-! ## Part B: Citation Resolution Engine (modelled from the spec) -/

/-- Modelled from the spec: result status of the missing
`ResolutionOrchestrator` (spec section 3, `ResolutionResult.status`). -/
inductive Status
  | single
  | search_result
  | not_found
deriving DecidableEq

/-- Modelled from the spec: confidence labels of the missing
`ConfidenceScorer` (spec sections 3 and 4.6). -/
inductive Confidence
  | high
  | medium
  | low
deriving DecidableEq

/-- Modelled from the spec: transformation kinds of the missing
`ReporterTransformer` (spec section 3, `CandidateCitation.transformKind`). -/
inductive TransformKind
  | identity
  | reporterAlias
  | spacingFix
  | formatVariant
deriving DecidableEq

/-- Modelled from the spec: failure kinds of the missing `DirectLookupClient`
(spec section 4.3, `LookupFailure.kind`). -/
inductive FailKind
  | notFound
  | network
  | timeout
  | malformed
deriving DecidableEq

/-- Modelled from the spec: per-candidate lookup failure of the missing
`DirectLookupClient` (spec sections 4.3 and 7). -/
structure LookupFailure where
  kind : FailKind
deriving DecidableEq

/-- Modelled from the spec: the opinion record owned by the external source
(spec section 3, `OpinionRecord`). -/
structure OpinionRecord where
  opinionId : Int
  courtListenerUrl : String
  htmlText : Option String
  plainText : Option String
deriving DecidableEq

/-- Modelled from the spec: the normalized citation value produced by the
missing `CitationNormalizer` (spec section 3, `Citation`). -/
structure Citation where
  raw : String
  volume : Nat
  reporter : String
  page : Nat
  caseNameHint : Option String
deriving DecidableEq

/-- Modelled from the spec: a citation candidate in the transformation
sequence of the missing `ReporterTransformer` (spec section 3,
`CandidateCitation`). -/
structure CandidateCitation where
  cit : Citation
  transformKind : TransformKind
  sourceRank : Nat
deriving DecidableEq

/-- Modelled from the spec: the errors of the missing `CitationNormalizer`
(spec sections 4.1 and 7, `InvalidCitationError` with `CitationTooLong`). -/
inductive InvalidCitationError
  | citationTooLong
  | noNumericPattern
deriving DecidableEq

/-- Modelled from the spec: one ranked hit returned by the external full-text
search endpoint used by the missing `SearchFallbackClient`; the relevance
number is the external relevance used to judge a high first-result rank
(spec sections 4.4 and 4.6). -/
structure SearchHit where
  opinion : OpinionRecord
  relevance : Nat
deriving DecidableEq

/-- Modelled from the spec: the single output of the missing
`ResolutionOrchestrator` (spec sections 3 and 7, `ResolutionResult` plus the
human-readable `message` on `not_found`). -/
structure ResolutionResult where
  status : Status
  opinion : Option OpinionRecord
  citation : String
  transformedFrom : Option String
  searchTerm : Option String
  confidence : Option Confidence
  message : Option String
deriving DecidableEq

/-- Modelled from the spec: the length bound on raw citations (spec section
4.1, reject beyond e.g. 200 characters). -/
def maxCitationLength : Nat := 200

/-- Modelled from the spec: whitespace tokenization used by the missing
`CitationNormalizer`; splits a character list into maximal non-whitespace
runs, the accumulator holding the current word reversed. -/
def splitWordsAux : List Char → List Char → List (List Char)
  | [], acc => if acc.isEmpty then [] else [acc.reverse]
  | ch :: rest, acc =>
    if ch.isWhitespace then
      if acc.isEmpty then splitWordsAux rest []
      else acc.reverse :: splitWordsAux rest []
    else splitWordsAux rest (ch :: acc)

/-- Modelled from the spec: the whitespace-separated words of a string. -/
def splitWords (s : String) : List (List Char) := splitWordsAux s.data []

/-- Modelled from the spec: characters that belong to citation tokens; all
other characters (whitespace and punctuation) separate tokens (spec section
4.1, tokenize on whitespace and punctuation). -/
def tokenChar (ch : Char) : Bool := ch.isDigit || ch.isAlpha

/-- Modelled from the spec: tokenizer of the missing `CitationNormalizer`.
Tokens are maximal runs of same-class characters (digit runs or letter runs);
whitespace and punctuation separate tokens.  Splitting digit runs from letter
runs realizes the spec requirement that spacing variants such as
"410U.S.113" still expose a numeric volume/page pair (spec sections 4.1
and 8). -/
def tokenizeAux : List Char → List Char → List (List Char)
  | [], acc => if acc.isEmpty then [] else [acc.reverse]
  | ch :: rest, acc =>
    if tokenChar ch then
      match acc with
      | [] => tokenizeAux rest [ch]
      | a :: as =>
        if a.isDigit = ch.isDigit then tokenizeAux rest (ch :: a :: as)
        else (a :: as).reverse :: tokenizeAux rest [ch]
    else
      if acc.isEmpty then tokenizeAux rest []
      else acc.reverse :: tokenizeAux rest []

/-- Modelled from the spec: tokens of a list of words, each word tokenized on
punctuation and character-class boundaries. -/
def tokensOfWords (ws : List (List Char)) : List (List Char) :=
  (ws.map (fun w => tokenizeAux w [])).flatten

/-- Modelled from the spec: the case-name separator heuristic of the missing
`CitationNormalizer` (spec section 4.1, the "V." / "v." separator). -/
def isVersusWord (w : List Char) : Bool :=
  w == ['v', '.'] || w == ['V', '.']

/-- Modelled from the spec: whether a word opens with a digit, used to find
where the numeric citation tail begins. -/
def startsWithDigit (w : List Char) : Bool :=
  match w with
  | [] => false
  | ch :: _ => ch.isDigit

/-- Modelled from the spec: joins words with single spaces. -/
def joinWords : List (List Char) → List Char
  | [] => []
  | [w] => w
  | w :: rest => w ++ ' ' :: joinWords rest

/-- Modelled from the spec: splits the raw words into an optional case-name
fragment and the citation tail.  When a "v." separator is present, the case
name is the run of words before the first digit-opening word and the tail is
the rest (spec section 4.1). -/
def splitCaseName (ws : List (List Char)) : Option (List Char) × List (List Char) :=
  if ws.any isVersusWord then
    let k := ws.findIdx startsWithDigit
    let nameWords := ws.take k
    ((if nameWords.isEmpty then none else some (joinWords nameWords)), ws.drop k)
  else (none, ws)

/-- Modelled from the spec: decimal value of a digit token. -/
def digitsToNat (t : List Char) : Nat :=
  t.foldl (fun n ch => n * 10 + (ch.toNat - 48)) 0

/-- Modelled from the spec: a token that is a single letter, the shape that
triggers the multi-token reporter collapse (spec section 4.1). -/
def isSingleAlpha (t : List Char) : Bool :=
  match t with
  | [ch] => ch.isAlpha
  | _ => false

/-- Modelled from the spec: collapse of a multi-token reporter sequence.  A
sequence of single letters collapses with dots (spec example: "U", "S" to
"U.S."); any other sequence is joined with single spaces. -/
def collapseReporter (mid : List (List Char)) : String :=
  if mid.all isSingleAlpha then
    String.mk ((mid.map (fun t => t ++ ['.'])).flatten)
  else String.mk (joinWords mid)

/-- Modelled from the spec: a non-empty all-digit token. -/
def isNumToken (t : List Char) : Bool := !t.isEmpty && t.all Char.isDigit

/-- Modelled from the spec: the `<number> <reporter-token>+ <number>` pattern
match of the missing `CitationNormalizer`, also enforcing the invariants
`volume > 0` and `page > 0` of spec section 3. -/
def parseTriple (toks : List (List Char)) : Option (Nat × String × Nat) :=
  match toks with
  | [] => none
  | v :: rest =>
    match rest.getLast? with
    | none => none
    | some p =>
      let mid := rest.dropLast
      if isNumToken v && isNumToken p && !mid.isEmpty then
        let vol := digitsToNat v
        let pg := digitsToNat p
        if 0 < vol && 0 < pg then some (vol, collapseReporter mid, pg) else none
      else none

/-- Modelled from the spec: `normalize` of the missing `CitationNormalizer`
(spec section 4.1): length check, case-name stripping, tokenization, pattern
match, producing a `Citation` or an `InvalidCitationError`. -/
def normalize (raw : String) : Except InvalidCitationError Citation :=
  if maxCitationLength < raw.length then Except.error InvalidCitationError.citationTooLong
  else
    let ws := splitWords raw
    let split := splitCaseName ws
    match parseTriple (tokensOfWords split.2) with
    | none => Except.error InvalidCitationError.noNumericPattern
    | some (vol, rep, pg) =>
      Except.ok { raw := raw, volume := vol, reporter := rep, page := pg,
                  caseNameHint := split.1.map String.mk }

/-- Modelled from the spec: the static reporter alias table of the missing
`ReporterTransformer`, static domain data grouping interchangeable reporter
spellings (spec section 4.2 and the documented examples "U.S.", "US", "U S",
"United States"). -/
def aliasGroups : List (List String) :=
  [["U.S.", "US", "U S", "United States"],
   ["S.Ct.", "S. Ct.", "SCt"]]

/-- Modelled from the spec: the static abbreviation-format table of the
missing `ReporterTransformer` (spec section 4.2 and the documented examples
"F.2d", "F. 2d", "F2d"). -/
def formatGroups : List (List String) :=
  [["F.2d", "F. 2d", "F2d"],
   ["F.3d", "F. 3d", "F3d"]]

/-- Modelled from the spec: the alternatives a table offers for a reporter,
in table order, the reporter itself excluded. -/
def groupLookup (tbl : List (List String)) (r : String) : List String :=
  match tbl.find? (fun g => g.contains r) with
  | some g => g.filter (fun s => s != r)
  | none => []

/-- Modelled from the spec: the reporter with all whitespace removed, the
spacing-normalized variant of spec section 4.2. -/
def stripSpaces (r : String) : String :=
  String.mk (r.data.filter (fun ch => !ch.isWhitespace))

/-- Modelled from the spec: whether the static tables know this reporter;
unknown reporters only ever produce the identity candidate (spec section
4.2). -/
def isKnownReporter (r : String) : Bool :=
  aliasGroups.any (fun g => g.contains r) || formatGroups.any (fun g => g.contains r)

/-- Modelled from the spec: spacing-normalized variants of a reporter token
(spec section 4.2); only emitted when they differ from the reporter itself. -/
def spacingVariants (r : String) : List String :=
  let ns := stripSpaces r
  if ns == r then [] else [ns]

/-- Modelled from the spec: the fixed-priority variant sequence of the
missing `ReporterTransformer` (spec section 4.2): identity first, then
reporter aliases, then spacing variants, then format variants; unknown
reporters only produce identity. -/
def variantPairs (r : String) : List (String × TransformKind) :=
  if isKnownReporter r then
    (r, TransformKind.identity)
      :: ((groupLookup aliasGroups r).map (fun a => (a, TransformKind.reporterAlias))
        ++ (spacingVariants r).map (fun a => (a, TransformKind.spacingFix))
        ++ (groupLookup formatGroups r).map (fun a => (a, TransformKind.formatVariant)))
  else [(r, TransformKind.identity)]

/-- Modelled from the spec: builds `CandidateCitation`s from variant pairs,
assigning consecutive `sourceRank` positions. -/
def mkCandidates (c : Citation) : Nat → List (String × TransformKind) → List CandidateCitation
  | _, [] => []
  | i, (rep, k) :: rest =>
    { cit := { c with reporter := rep }, transformKind := k, sourceRank := i }
      :: mkCandidates c (i + 1) rest

/-- Modelled from the spec: the `MAX_CITATION_EXPANSION` limit on the
transformation fan-out (spec section 4.2, default small, e.g. 6). -/
def maxCitationExpansion : Nat := 6

/-- Modelled from the spec: `expand` of the missing `ReporterTransformer`
(spec section 4.2): the ordered, bounded candidate sequence, length at most
`limit`. -/
def expand (c : Citation) (limit : Nat) : List CandidateCitation :=
  mkCandidates c 0 ((variantPairs c.reporter).take limit)

/-- Modelled from the spec: the external CourtListener upstream as an oracle.
`lookup` is the citation-redirect round trip of the missing
`DirectLookupClient` for a `{reporter, volume, page}` triple, `lookupCost`
the wall-clock milliseconds it consumes, and `search` the full-text search
endpoint of the missing `SearchFallbackClient` (spec sections 4.3, 4.4
and 6). -/
structure Upstream where
  lookup : String → Nat → Nat → Except LookupFailure OpinionRecord
  lookupCost : String → Nat → Nat → Nat
  search : String → Nat → List SearchHit

/-- Modelled from the spec: one network round trip issued by the engine,
recorded so that frame conditions about upstream traffic can be stated. -/
inductive NetCall
  | direct (reporter : String) (volume : Nat) (page : Nat)
  | searchQuery (term : String) (maxResults : Nat)
deriving DecidableEq

/-- Modelled from the spec: the wall-clock budget on the whole cascade (spec
section 4.5, e.g. 5 seconds total). -/
def totalBudgetMs : Nat := 5000

/-- Modelled from the spec: the `maxResults` bound of the missing
`SearchFallbackClient` (spec section 4.4, small, e.g. 5). -/
def searchMaxResults : Nat := 5

/-- Modelled from the spec: the relevance level from which a first search
result counts as having a high rank (spec section 4.6); the concrete value is
a modelling choice, only the comparison against it matters. -/
def highRelevanceThreshold : Nat := 50

/-- Modelled from the spec: the resolution path fed to the missing
`ConfidenceScorer` (spec section 4.6). -/
inductive ResolutionPath
  | identityDirect
  | transformedDirect
  | searchFromHint
  | searchFromCitation (highFirstRank : Bool)
deriving DecidableEq

/-- Modelled from the spec: `score` of the missing `ConfidenceScorer` (spec
section 4.6): direct matches score high, a search match from the case-name
hint scores low unconditionally, a search match from the citation string
scores medium exactly when the first-result rank is high. -/
def score : ResolutionPath → Confidence
  | ResolutionPath.identityDirect => Confidence.high
  | ResolutionPath.transformedDirect => Confidence.high
  | ResolutionPath.searchFromHint => Confidence.low
  | ResolutionPath.searchFromCitation hi => if hi then Confidence.medium else Confidence.low

/-- Modelled from the spec: the canonical string form of a normalized
citation, used as result citation and as fallback search term (spec sections
3 and 4.4). -/
def canonicalCitation (c : Citation) : String :=
  toString c.volume ++ " " ++ c.reporter ++ " " ++ toString c.page

/-- Modelled from the spec: number of whitespace-separated words. -/
def countWords (s : String) : Nat := (splitWords s).length

/-- Modelled from the spec: search-term selection of the missing
`SearchFallbackClient` (spec section 4.4): prefer a non-trivial case-name
hint of at least two words, otherwise the normalized citation string
verbatim.  The boolean records whether the hint was chosen. -/
def searchTermOf (c : Citation) : String × Bool :=
  match c.caseNameHint with
  | some h => if 2 ≤ countWords h then (h, true) else (canonicalCitation c, false)
  | none => (canonicalCitation c, false)

/-- Modelled from the spec: outcome of the candidate loop of the missing
`ResolutionOrchestrator`: a successful candidate, exhaustion of the sequence,
or the wall-clock budget cutting the cascade short (spec section 4.5). -/
inductive CascadeOut
  | found (cand : CandidateCitation) (op : OpinionRecord)
  | exhausted
  | budgetExceeded
deriving DecidableEq

/-- Modelled from the spec: the direct-lookup network call for a candidate. -/
def directCall (cd : CandidateCitation) : NetCall :=
  NetCall.direct cd.cit.reporter cd.cit.volume cd.cit.page

/-- Modelled from the spec: the lookup of one candidate via the oracle. -/
def lookupOf (u : Upstream) (cd : CandidateCitation) : Except LookupFailure OpinionRecord :=
  u.lookup cd.cit.reporter cd.cit.volume cd.cit.page

/-- Modelled from the spec: wall-clock cost of one candidate lookup. -/
def costOf (u : Upstream) (cd : CandidateCitation) : Nat :=
  u.lookupCost cd.cit.reporter cd.cit.volume cd.cit.page

/-- Modelled from the spec: whether the lookup of a candidate fails,
whatever the failure kind. -/
def lookupFails (u : Upstream) (cd : CandidateCitation) : Bool :=
  match lookupOf u cd with
  | Except.ok _ => false
  | Except.error _ => true

/-- Modelled from the spec: the candidate loop of the missing
`ResolutionOrchestrator` (spec section 4.5, states `DirectAttempt` and
`TransformAttempt(i)`): candidates are tried strictly in order, every failure
kind advances to the next candidate, and the loop aborts exactly when the
accumulated wall-clock cost exceeds the budget.  Returns the outcome, the
elapsed time and the trace of issued network calls. -/
def runCandidates (u : Upstream) (budget : Nat) :
    List CandidateCitation → Nat → CascadeOut × Nat × List NetCall
  | [], elapsed => (CascadeOut.exhausted, elapsed, [])
  | cd :: rest, elapsed =>
    match lookupOf u cd with
    | Except.ok op => (CascadeOut.found cd op, elapsed + costOf u cd, [directCall cd])
    | Except.error _ =>
      let elapsed2 := elapsed + costOf u cd
      if budget < elapsed2 then (CascadeOut.budgetExceeded, elapsed2, [directCall cd])
      else
        let out := runCandidates u budget rest elapsed2
        (out.1, out.2.1, directCall cd :: out.2.2)

/-- Modelled from the spec: the `not_found` result with its human-readable
message (spec section 7 and the documented response format). -/
def notFoundResult (citationStr : String) (msg : String) : ResolutionResult :=
  { status := Status.not_found, opinion := none, citation := citationStr,
    transformedFrom := none, searchTerm := none, confidence := none,
    message := some msg }

/-- Modelled from the spec: the full cascade of the missing
`ResolutionOrchestrator` (spec section 4.5), instrumented with the trace of
network calls: normalization, the candidate loop, then the search fallback;
per-stage failures are absorbed and the worst case is `not_found`. -/
def resolveWithTrace (u : Upstream) (raw : String) : ResolutionResult × List NetCall :=
  match normalize raw with
  | Except.error _ =>
    (notFoundResult raw ("Could not find case for citation: " ++ raw), [])
  | Except.ok c =>
    let cands := expand c maxCitationExpansion
    let out := runCandidates u totalBudgetMs cands 0
    match out.1 with
    | CascadeOut.found cd op =>
      ({ status := Status.single, opinion := some op, citation := canonicalCitation c,
         transformedFrom :=
           if cd.transformKind = TransformKind.identity then none else some raw,
         searchTerm := none, confidence := none, message := none }, out.2.2)
    | CascadeOut.budgetExceeded =>
      (notFoundResult (canonicalCitation c) "timeout_budget_exceeded", out.2.2)
    | CascadeOut.exhausted =>
      let term := (searchTermOf c).1
      let trace := out.2.2 ++ [NetCall.searchQuery term searchMaxResults]
      match u.search term searchMaxResults with
      | [] =>
        (notFoundResult (canonicalCitation c)
          ("Could not find case for citation: " ++ raw), trace)
      | h :: _ =>
        let path := if (searchTermOf c).2 then ResolutionPath.searchFromHint
          else ResolutionPath.searchFromCitation
            (decide (highRelevanceThreshold ≤ h.relevance))
        ({ status := Status.search_result, opinion := some h.opinion,
           citation := canonicalCitation c, transformedFrom := none,
           searchTerm := some term, confidence := some (score path),
           message := none }, trace)

/-- Modelled from the spec: `ResolveCitation`, the single public operation of
the engine (spec section 6). -/
def ResolveCitation (u : Upstream) (raw : String) : ResolutionResult :=
  (resolveWithTrace u raw).1

/-! ### Concrete instances used to exercise the theorems -/

/-- Decidable equality for `Except`, used to evaluate concrete oracle
answers. -/
instance {ε α : Type} [DecidableEq ε] [DecidableEq α] : DecidableEq (Except ε α) := fun a b =>
  match a, b with
  | Except.error e, Except.error f =>
    if h : e = f then Decidable.isTrue (by rw [h])
    else Decidable.isFalse (fun hh => by injection hh with h2; exact h h2)
  | Except.ok x, Except.ok y =>
    if h : x = y then Decidable.isTrue (by rw [h])
    else Decidable.isFalse (fun hh => by injection hh with h2; exact h h2)
  | Except.error _, Except.ok _ => Decidable.isFalse (fun hh => Except.noConfusion hh)
  | Except.ok _, Except.error _ => Decidable.isFalse (fun hh => Except.noConfusion hh)

/-- A sample opinion record, mirroring the documented Roe v. Wade example. -/
def rec0 : OpinionRecord :=
  { opinionId := 108713
    courtListenerUrl := "https://www.courtlistener.com/opinion/108713/"
    htmlText := some "<p>Roe v. Wade opinion text...</p>"
    plainText := none }

/-- A stable upstream that recognizes exactly the citation U.S. 410 113 on
the direct endpoint, answers instantly, and finds nothing by search. -/
def upstream1 : Upstream :=
  { lookup := fun r v p =>
      if r == "U.S." && v == 410 && p == 113 then Except.ok rec0
      else Except.error { kind := FailKind.notFound }
    lookupCost := fun _ _ _ => 0
    search := fun _ _ => [] }

/-- A sample hit returned by the full-text search endpoint. -/
def hitFoo : SearchHit :=
  { opinion :=
      { opinionId := 424242
        courtListenerUrl := "https://www.courtlistener.com/opinion/424242/"
        htmlText := none
        plainText := some "opinion text" }
    relevance := 10 }

/-- An upstream whose direct endpoint recognizes nothing but whose search
endpoint returns a hit for the query string 410 Foo 999. -/
def upstreamFooHit : Upstream :=
  { lookup := fun _ _ _ => Except.error { kind := FailKind.notFound }
    lookupCost := fun _ _ _ => 0
    search := fun term _ => if term == "410 Foo 999" then [hitFoo] else [] }

/-- A dead-data upstream: every direct lookup fails and every search is
empty. -/
def upstreamEmpty : Upstream :=
  { lookup := fun _ _ _ => Except.error { kind := FailKind.network }
    lookupCost := fun _ _ _ => 0
    search := fun _ _ => [] }

/-- The normalized form of the raw citation 410 U.S. 113. -/
def citRoe : Citation :=
  { raw := "410 U.S. 113", volume := 410, reporter := "U.S.", page := 113,
    caseNameHint := none }

/-- The normalized form of the raw citation 410 US 113, whose reporter is an
alias of the canonical U.S. spelling. -/
def citUS : Citation :=
  { raw := "410 US 113", volume := 410, reporter := "US", page := 113,
    caseNameHint := none }

/-- The normalized form of the raw citation 410 Foo 999, whose reporter is
unknown to the static tables. -/
def citFoo : Citation :=
  { raw := "410 Foo 999", volume := 410, reporter := "Foo", page := 999,
    caseNameHint := none }

/-- A candidate with an unknown reporter, used to exercise the candidate
loop on its own. -/
def candBar : CandidateCitation :=
  { cit := { raw := "1 Bar 2", volume := 1, reporter := "Bar", page := 2,
             caseNameHint := none }
    transformKind := TransformKind.identity
    sourceRank := 0 }

/-! ## Theorems -/

/-- Claim C9: for every query string and every behavior of the backend, the
research entry point `handleResearchQuery` settles with an assistant
`ChatMessage` and never rejects: the promise value is `Except.ok` of the
first attempt, every attempt yields an assistant message, and a failed fetch,
a non-ok HTTP response, or malformed response data each produce the chat
error message, whose content starts with the words
Sorry, I encountered an error while researching. -/
theorem handleResearchQuery_never_rejects (q : String) (env : Nat → FetchOutcome) :
    (handleResearchQuery q env).1 = Except.ok (researchAttempt q (env 0))
    ∧ (∀ o : FetchOutcome, (researchAttempt q o).role = Role.assistant)
    ∧ researchAttempt q FetchOutcome.networkError = researchErrorMessage q
    ∧ (∀ s : Nat, researchAttempt q (FetchOutcome.httpError s) = researchErrorMessage q)
    ∧ researchAttempt q FetchOutcome.okMalformed = researchErrorMessage q
    ∧ ∃ rest : String,
        (researchErrorMessage q).content
          = "Sorry, I encountered an error while researching" ++ rest := by
  refine ⟨rfl, ?_, rfl, fun s => rfl, rfl, ?_⟩
  · intro o
    cases o <;> rfl
  · refine ⟨" \"" ++ q ++ "\". Please try again.", ?_⟩
    have h : "Sorry, I encountered an error while researching \""
        = "Sorry, I encountered an error while researching" ++ " \"" := by decide
    show "Sorry, I encountered an error while researching \"" ++ q
        ++ "\". Please try again." = _
    rw [h, String.append_assoc, String.append_assoc, String.append_assoc]

/-- Claim C10 counterexample: the search request can never be issued three
times for one query.  `ErrorHandler.withRetry` counts total attempts, so the
call with `maxRetries = 2` allows at most two, and because the wrapped
closure absorbs its own errors and always fulfills, the first attempt always
succeeds at the retry layer. -/
theorem withRetry_never_three_requests :
    ¬ ∃ (q : String) (env : Nat → FetchOutcome),
        3 ≤ (handleResearchQuery q env).2.length := by
  rintro ⟨q, env, h⟩
  have hq : (handleResearchQuery q env).2
      = [{ query := q, max_results := researchMaxResults }] := rfl
  rw [hq] at h
  simp at h

/-- Claim C10 (amended): `handleResearchQuery` wraps the whole search request
and document creation in `ErrorHandler.withRetry` configured with
`maxRetries = 2` and `delay = 1500` milliseconds, and the request body always
fixes `max_results` at 10; since `withRetry` counts total attempts, the
request is issued at most twice at the caller layer, and because the wrapped
closure absorbs its own errors it is in fact issued exactly once per query. -/
theorem handleResearchQuery_retry_config (q : String) (env : Nat → FetchOutcome) :
    (handleResearchQuery q env).2 = [{ query := q, max_results := 10 }]
    ∧ researchMaxRetries = 2 ∧ researchRetryDelayMs = 1500
    ∧ ∀ (op : Nat → ResearchRequest × Except JsError ChatMessage) (n k : Nat)
        (last : Option JsError), (withRetryTraced op n k last).2.length ≤ n := by
  refine ⟨rfl, rfl, rfl, ?_⟩
  intro op n
  induction n with
  | zero => intro k last; simp [withRetryTraced]
  | succ m ih =>
    intro k last
    simp only [withRetryTraced]
    rcases hop : op k with ⟨req, r⟩
    cases r with
    | ok v => simp
    | error e =>
      by_cases hm : m = 0
      · subst hm; simp
      · simp only [hm, if_false]
        have := ih (k + 1) (some e)
        simp only [List.length_cons]
        omega

/-- A candidate whose lookup succeeds terminates the loop at once. -/
theorem runCandidates_head_success (u : Upstream) (B : Nat) (cd : CandidateCitation)
    (rest : List CandidateCitation) (e : Nat) (op : OpinionRecord)
    (h : lookupOf u cd = Except.ok op) :
    runCandidates u B (cd :: rest) e
      = (CascadeOut.found cd op, e + costOf u cd, [directCall cd]) := by
  simp [runCandidates, h]

/-- With free lookups, the loop reaches the first succeeding candidate and
its trace is exactly the ordered prefix of direct calls up to it. -/
theorem runCandidates_firstSuccess (u : Upstream) (B : Nat)
    (hcost : ∀ r v p, u.lookupCost r v p = 0) :
    ∀ (n : Nat) (l : List CandidateCitation) (hn : n < l.length) (op : OpinionRecord),
      (∀ cd ∈ l.take n, lookupFails u cd = true) →
      lookupOf u (l.get ⟨n, hn⟩) = Except.ok op →
      runCandidates u B l 0
        = (CascadeOut.found (l.get ⟨n, hn⟩) op, 0, (l.take (n + 1)).map directCall) := by
  intro n
  induction n with
  | zero =>
    intro l hn op hfail hsucc
    cases l with
    | nil => simp at hn
    | cons cd rest =>
      rw [runCandidates_head_success u B cd rest 0 op hsucc]
      simp [costOf, hcost]
  | succ m ih =>
    intro l hn op hfail hsucc
    cases l with
    | nil => simp at hn
    | cons cd rest =>
      have hcd : lookupFails u cd = true := hfail cd (by simp)
      cases heq : lookupOf u cd with
      | ok o2 => simp [lookupFails, heq] at hcd
      | error f =>
        have hc0 : costOf u cd = 0 := hcost _ _ _
        have hm : m < rest.length := by
          simpa using Nat.lt_of_succ_lt_succ hn
        have hfail2 : ∀ cd2 ∈ rest.take m, lookupFails u cd2 = true := by
          intro cd2 h2
          exact hfail cd2 (by simp [h2])
        have hsucc2 : lookupOf u (rest.get ⟨m, hm⟩) = Except.ok op := hsucc
        have := ih rest hm op hfail2 hsucc2
        simp only [runCandidates, heq, hc0, Nat.add_zero, Nat.zero_add]
        have hB : ¬ (B < 0) := Nat.not_lt_zero B
        simp only [hB, if_false, this]
        simp [List.take_succ_cons]

/-- With free lookups, a loop in which every candidate fails exhausts the
list and its trace is the direct call for every candidate in order. -/
theorem runCandidates_allFail (u : Upstream) (B : Nat)
    (hcost : ∀ r v p, u.lookupCost r v p = 0) :
    ∀ l : List CandidateCitation,
      (∀ cd ∈ l, lookupFails u cd = true) →
      runCandidates u B l 0 = (CascadeOut.exhausted, 0, l.map directCall) := by
  intro l
  induction l with
  | nil => intro _; simp [runCandidates]
  | cons cd rest ih =>
    intro hfail
    have hcd : lookupFails u cd = true := hfail cd (by simp)
    cases heq : lookupOf u cd with
    | ok o2 => simp [lookupFails, heq] at hcd
    | error f =>
      have hc0 : costOf u cd = 0 := hcost _ _ _
      have hrest := ih (fun cd2 h2 => hfail cd2 (by simp [h2]))
      simp only [runCandidates, heq, hc0, Nat.add_zero, Nat.zero_add]
      have hB : ¬ (B < 0) := Nat.not_lt_zero B
      simp [hB, hrest]

/-- The candidate sequence always opens with the identity candidate. -/
theorem expand_head (c : Citation) :
    ∃ rest, expand c maxCitationExpansion
      = { cit := c, transformKind := TransformKind.identity, sourceRank := 0 } :: rest := by
  unfold expand variantPairs maxCitationExpansion
  by_cases h : isKnownReporter c.reporter <;>
    simp [h, List.take_succ_cons, mkCandidates]

/-- An unknown reporter only ever produces the identity candidate. -/
theorem expand_unknown (c : Citation) (h : isKnownReporter c.reporter = false) :
    expand c maxCitationExpansion
      = [{ cit := c, transformKind := TransformKind.identity, sourceRank := 0 }] := by
  unfold expand variantPairs maxCitationExpansion
  simp [h, List.take_succ_cons, mkCandidates]

/-- Every character of a word produced by the word splitter comes from the
input or from the accumulator. -/
theorem mem_splitWordsAux :
    ∀ (l acc w : List Char), w ∈ splitWordsAux l acc →
      ∀ ch ∈ w, ch ∈ l ∨ ch ∈ acc := by
  intro l
  induction l with
  | nil =>
    intro acc w hw ch hch
    by_cases hacc : acc.isEmpty
    · simp [splitWordsAux, hacc] at hw
    · simp [splitWordsAux, hacc] at hw
      subst hw
      exact Or.inr (List.mem_reverse.mp hch)
  | cons c0 rest ih =>
    intro acc w hw ch hch
    by_cases hws : c0.isWhitespace
    · by_cases hacc : acc.isEmpty
      · simp [splitWordsAux, hws, hacc] at hw
        rcases ih [] w hw ch hch with h1 | h2
        · exact Or.inl (List.mem_cons_of_mem c0 h1)
        · simp at h2
      · simp [splitWordsAux, hws, hacc] at hw
        rcases hw with hw | hw
        · subst hw
          exact Or.inr (List.mem_reverse.mp hch)
        · rcases ih [] w hw ch hch with h1 | h2
          · exact Or.inl (List.mem_cons_of_mem c0 h1)
          · simp at h2
    · simp [splitWordsAux, hws] at hw
      rcases ih (c0 :: acc) w hw ch hch with h1 | h2
      · exact Or.inl (List.mem_cons_of_mem c0 h1)
      · rcases List.mem_cons.mp h2 with h3 | h3
        · exact Or.inl (h3 ▸ List.mem_cons_self c0 rest)
        · exact Or.inr h3

/-- Every character of a token produced by the tokenizer comes from the
input or from the accumulator. -/
theorem mem_tokenizeAux :
    ∀ (l acc w : List Char), w ∈ tokenizeAux l acc →
      ∀ ch ∈ w, ch ∈ l ∨ ch ∈ acc := by
  intro l
  induction l with
  | nil =>
    intro acc w hw ch hch
    by_cases hacc : acc.isEmpty
    · simp [tokenizeAux, hacc] at hw
    · simp [tokenizeAux, hacc] at hw
      subst hw
      exact Or.inr (List.mem_reverse.mp hch)
  | cons c0 rest ih =>
    intro acc w hw ch hch
    by_cases htc : tokenChar c0
    · cases acc with
      | nil =>
        simp only [tokenizeAux, htc, if_true] at hw
        rcases ih [c0] w hw ch hch with h1 | h2
        · exact Or.inl (List.mem_cons_of_mem c0 h1)
        · exact Or.inl ((List.mem_singleton.mp h2) ▸ List.mem_cons_self c0 rest)
      | cons a as =>
        by_cases hcl : a.isDigit = c0.isDigit
        · simp only [tokenizeAux, htc, if_true, hcl, if_true] at hw
          rcases ih (c0 :: a :: as) w hw ch hch with h1 | h2
          · exact Or.inl (List.mem_cons_of_mem c0 h1)
          · rcases List.mem_cons.mp h2 with h3 | h3
            · exact Or.inl (h3 ▸ List.mem_cons_self c0 rest)
            · exact Or.inr h3
        · simp [tokenizeAux, htc, hcl] at hw
          rcases hw with hw | hw
          · subst hw
            rcases List.mem_append.mp hch with h3 | h3
            · exact Or.inr (List.mem_cons_of_mem a (List.mem_reverse.mp h3))
            · exact Or.inr ((List.mem_singleton.mp h3) ▸ List.mem_cons_self a as)
          · rcases ih [c0] w hw ch hch with h1 | h2
            · exact Or.inl (List.mem_cons_of_mem c0 h1)
            · exact Or.inl ((List.mem_singleton.mp h2) ▸ List.mem_cons_self c0 rest)
    · by_cases hacc : acc.isEmpty
      · simp [tokenizeAux, htc, hacc] at hw
        rcases ih [] w hw ch hch with h1 | h2
        · exact Or.inl (List.mem_cons_of_mem c0 h1)
        · simp at h2
      · simp [tokenizeAux, htc, hacc] at hw
        rcases hw with hw | hw
        · subst hw
          exact Or.inr (List.mem_reverse.mp hch)
        · rcases ih [] w hw ch hch with h1 | h2
          · exact Or.inl (List.mem_cons_of_mem c0 h1)
          · simp at h2

/-- A raw string containing no digit at all never normalizes: no numeric
volume/page pair can be found. -/
theorem normalize_noDigit (raw : String)
    (h : ∀ ch ∈ raw.data, ch.isDigit = false) :
    ∃ e, normalize raw = Except.error e := by
  by_cases hlen : maxCitationLength < raw.length
  · exact ⟨InvalidCitationError.citationTooLong, by unfold normalize; rw [if_pos hlen]⟩
  · have hwords : ∀ w ∈ splitWords raw, ∀ ch ∈ w, ch.isDigit = false := by
      intro w hw ch hch
      rcases mem_splitWordsAux raw.data [] w hw ch hch with h1 | h2
      · exact h ch h1
      · simp at h2
    have htail : ∀ w ∈ (splitCaseName (splitWords raw)).2, ∀ ch ∈ w, ch.isDigit = false := by
      intro w hw
      apply hwords
      unfold splitCaseName at hw
      by_cases hv : (splitWords raw).any isVersusWord
      · simp only [hv, if_true] at hw
        exact List.mem_of_mem_drop hw
      · simpa [hv] using hw
    have htoks : ∀ t ∈ tokensOfWords (splitCaseName (splitWords raw)).2,
        ∀ ch ∈ t, ch.isDigit = false := by
      intro t ht ch hch
      unfold tokensOfWords at ht
      rcases List.mem_flatten.mp ht with ⟨toks, htoks2, ht2⟩
      rcases List.mem_map.mp htoks2 with ⟨w, hw, hwe⟩
      rcases mem_tokenizeAux w [] t (hwe ▸ ht2) ch hch with h1 | h2
      · exact htail w hw ch h1
      · simp at h2
    have hparse : parseTriple (tokensOfWords (splitCaseName (splitWords raw)).2) = none := by
      cases hts : tokensOfWords (splitCaseName (splitWords raw)).2 with
      | nil => rfl
      | cons v rest =>
        have hv : isNumToken v = false := by
          cases v with
          | nil => rfl
          | cons ch tl =>
            have hd : ch.isDigit = false := by
              apply htoks (ch :: tl) _ ch (List.mem_cons_self ch tl)
              rw [hts]
              exact List.mem_cons_self _ _
            simp [isNumToken, hd]
        simp only [parseTriple]
        cases hgl : rest.getLast? with
        | none => simp [hgl]
        | some p => simp [hgl, hv]
    refine ⟨InvalidCitationError.noNumericPattern, ?_⟩
    unfold normalize
    rw [if_neg hlen]
    simp only [hparse]

/-- Claim C1: for every well-formed citation whose reporter the upstream
recognizes directly (the direct lookup of the normalized triple succeeds),
`ResolveCitation` returns `status = single` with `transformedFrom` unset: the
identity candidate is tried first and no transformation is recorded. -/
theorem resolve_direct_single (u : Upstream) (raw : String) (c : Citation) (op : OpinionRecord)
    (hnorm : normalize raw = Except.ok c)
    (hlook : u.lookup c.reporter c.volume c.page = Except.ok op) :
    (ResolveCitation u raw).status = Status.single
    ∧ (ResolveCitation u raw).transformedFrom = none
    ∧ (ResolveCitation u raw).opinion = some op := by
  rcases expand_head c with ⟨rest, hexp⟩
  have hcd : lookupOf u { cit := c, transformKind := TransformKind.identity, sourceRank := 0 }
      = Except.ok op := hlook
  have hrun := runCandidates_head_success u totalBudgetMs _ rest 0 op hcd
  simp only [ResolveCitation, resolveWithTrace, hnorm, hexp, hrun]
  simp

/-- Claim C1 witness: the documented example 410 U.S. 113 against a stable
upstream resolves to a single match with no transformation recorded. -/
theorem resolve_direct_single_w :
    (ResolveCitation upstream1 "410 U.S. 113").status = Status.single
    ∧ (ResolveCitation upstream1 "410 U.S. 113").transformedFrom = none
    ∧ (ResolveCitation upstream1 "410 U.S. 113").opinion = some rec0 :=
  resolve_direct_single upstream1 "410 U.S. 113" citRoe rec0 (by decide) (by decide)

/-- Claim C2 counterexample: the claim names 410U.S.113 as a spacing variant
that must resolve with `transformedFrom` set to the raw input, but the
normalizer already canonicalizes that spacing variant (its tokenizer splits
the digit runs from the letter runs and collapses U, S to U.S.), so the
identity candidate wins the direct lookup and the result is `single` with
`transformedFrom` unset, not set to the raw input. -/
theorem spacing_variant_identity_match :
    (ResolveCitation upstream1 "410U.S.113").status = Status.single
    ∧ (ResolveCitation upstream1 "410U.S.113").transformedFrom = none
    ∧ (ResolveCitation upstream1 "410U.S.113").transformedFrom ≠ some "410U.S.113" := by
  decide

/-- Claim C2 (amended): for every citation string that normalizes
successfully and whose identity candidate (and every earlier candidate) the
upstream rejects while a known reporter-alias or spacing-variant candidate
succeeds, `ResolveCitation` returns `status = single` with `transformedFrom`
set to the raw input string and the `confidence` field absent: a transformed
direct match is treated exactly as a high-confidence exact match.  Variants
that the normalizer itself canonicalizes (such as 410U.S.113) instead
resolve via the identity candidate with `transformedFrom` unset. -/
theorem resolve_transformed_single (u : Upstream) (raw : String) (c : Citation)
    (i : Nat) (op : OpinionRecord)
    (hcost : ∀ r v p, u.lookupCost r v p = 0)
    (hnorm : normalize raw = Except.ok c)
    (hi : i < (expand c maxCitationExpansion).length)
    (hkind : ((expand c maxCitationExpansion).get ⟨i, hi⟩).transformKind
          = TransformKind.reporterAlias
        ∨ ((expand c maxCitationExpansion).get ⟨i, hi⟩).transformKind
          = TransformKind.spacingFix)
    (hfail : ∀ cd ∈ (expand c maxCitationExpansion).take i, lookupFails u cd = true)
    (hsucc : lookupOf u ((expand c maxCitationExpansion).get ⟨i, hi⟩) = Except.ok op) :
    (ResolveCitation u raw).status = Status.single
    ∧ (ResolveCitation u raw).transformedFrom = some raw
    ∧ (ResolveCitation u raw).confidence = none
    ∧ (ResolveCitation u raw).opinion = some op := by
  have hrun := runCandidates_firstSuccess u totalBudgetMs hcost i
    (expand c maxCitationExpansion) hi op hfail hsucc
  have hne : ((expand c maxCitationExpansion).get ⟨i, hi⟩).transformKind
      ≠ TransformKind.identity := by
    rcases hkind with h | h <;> rw [h] <;> intro hh <;> exact TransformKind.noConfusion hh
  have hne2 : ¬ (expand c maxCitationExpansion)[i].transformKind = TransformKind.identity := hne
  simp only [ResolveCitation, resolveWithTrace, hnorm, hrun]
  simp [hne2]

/-- Claim C2 witness: the documented alias example 410 US 113, whose reporter
only the canonical U.S. spelling resolves, yields a single match whose
`transformedFrom` is the raw input and whose confidence is absent. -/
theorem resolve_transformed_single_w :
    (ResolveCitation upstream1 "410 US 113").status = Status.single
    ∧ (ResolveCitation upstream1 "410 US 113").transformedFrom = some "410 US 113"
    ∧ (ResolveCitation upstream1 "410 US 113").confidence = none
    ∧ (ResolveCitation upstream1 "410 US 113").opinion = some rec0 :=
  resolve_transformed_single upstream1 "410 US 113" citUS 1 rec0 (fun _ _ _ => rfl)
    (by decide) (by decide) (by decide) (by decide) (by decide)

/-- Claim C3: for every input string and every upstream behavior,
`ResolveCitation` is a total function into `ResolutionResult` (no exception
path exists in the model by construction): the caller always receives a
result, a `not_found` result always carries a human-readable message, and any
other status carries an opinion. -/
theorem resolve_never_raises (u : Upstream) (raw : String) :
    ∃ r : ResolutionResult, ResolveCitation u raw = r
      ∧ (r.status = Status.not_found → r.message.isSome = true)
      ∧ (r.status = Status.not_found ∨ r.opinion.isSome = true) := by
  refine ⟨ResolveCitation u raw, rfl, ?_⟩
  simp only [ResolveCitation, resolveWithTrace]
  cases hn : normalize raw with
  | error e => simp [hn, notFoundResult]
  | ok c =>
    cases hout : (runCandidates u totalBudgetMs (expand c maxCitationExpansion) 0).1 with
    | found cd op => simp [hn, hout]
    | budgetExceeded => simp [hn, hout, notFoundResult]
    | exhausted =>
      cases hs : u.search (searchTermOf c).1 searchMaxResults with
      | nil => simp [hn, hout, hs, notFoundResult]
      | cons h t => simp [hn, hout, hs]

/-- Claim C3 witness: an unparseable input yields a result that still carries
a message. -/
theorem resolve_never_raises_w :
    (ResolveCitation upstream1 "totally unparseable").message.isSome = true := by
  rcases resolve_never_raises upstream1 "totally unparseable" with ⟨r, hr, h1, h2⟩
  have hst : r.status = Status.not_found := by rw [← hr]; decide
  rw [hr]
  exact h1 hst

/-- Claim C4: with free lookups, the network trace of a resolution is
strictly sequential and non-branching: the candidate sequence opens with the
identity candidate, the direct calls follow the candidate order of `expand`,
a first success at position n cuts the trace to exactly that prefix of direct
calls, and the single search call is appended only after every direct and
transformed candidate has failed.  `resolveWithTrace` produces exactly one
terminal `ResolutionResult` by construction. -/
theorem resolve_sequential_cascade (u : Upstream) (raw : String) (c : Citation)
    (hcost : ∀ r v p, u.lookupCost r v p = 0)
    (hnorm : normalize raw = Except.ok c) :
    (expand c maxCitationExpansion).head?
      = some { cit := c, transformKind := TransformKind.identity, sourceRank := 0 }
    ∧ (∀ (n : Nat) (hn : n < (expand c maxCitationExpansion).length) (op : OpinionRecord),
        (∀ cd ∈ (expand c maxCitationExpansion).take n, lookupFails u cd = true) →
        lookupOf u ((expand c maxCitationExpansion).get ⟨n, hn⟩) = Except.ok op →
        (resolveWithTrace u raw).2
          = ((expand c maxCitationExpansion).take (n + 1)).map directCall)
    ∧ ((∀ cd ∈ expand c maxCitationExpansion, lookupFails u cd = true) →
        (resolveWithTrace u raw).2
          = (expand c maxCitationExpansion).map directCall
            ++ [NetCall.searchQuery (searchTermOf c).1 searchMaxResults]) := by
  refine ⟨?_, ?_, ?_⟩
  · rcases expand_head c with ⟨rest, hexp⟩
    rw [hexp]
    rfl
  · intro n hn op hfail hsucc
    have hrun := runCandidates_firstSuccess u totalBudgetMs hcost n _ hn op hfail hsucc
    simp only [resolveWithTrace, hnorm, hrun]
  · intro hfailAll
    have hrun := runCandidates_allFail u totalBudgetMs hcost _ hfailAll
    simp only [resolveWithTrace, hnorm, hrun]
    cases hs : u.search (searchTermOf c).1 searchMaxResults <;> simp [hs]

/-- Claim C4 witness: for the direct example the trace is exactly the single
direct call for the identity candidate. -/
theorem resolve_sequential_cascade_w :
    (resolveWithTrace upstream1 "410 U.S. 113").2
      = ((expand citRoe maxCitationExpansion).take 1).map directCall :=
  (resolve_sequential_cascade upstream1 "410 U.S. 113" citRoe (fun _ _ _ => rfl)
    (by decide)).2.1 0 (by decide) rec0 (by decide) (by decide)

/-- Claim C5: whatever the kind of a per-candidate lookup failure (the
`LookupFailure` value is arbitrary, covering NotFound, Network, Timeout and
Malformed alike), the candidate loop advances to the next candidate whenever
the time budget permits, and it abandons the cascade exactly when the
accumulated cost exceeds the budget: abandonment is only ever the
budget decision of the orchestrator, never a lookup-layer decision. -/
theorem lookup_failure_advances (u : Upstream) (budget : Nat)
    (cd : CandidateCitation) (rest : List CandidateCitation) (elapsed : Nat)
    (f : LookupFailure) (hfail : lookupOf u cd = Except.error f) :
    (elapsed + costOf u cd ≤ budget →
      runCandidates u budget (cd :: rest) elapsed
        = ((runCandidates u budget rest (elapsed + costOf u cd)).1,
           (runCandidates u budget rest (elapsed + costOf u cd)).2.1,
           directCall cd :: (runCandidates u budget rest (elapsed + costOf u cd)).2.2))
    ∧ (budget < elapsed + costOf u cd →
      runCandidates u budget (cd :: rest) elapsed
        = (CascadeOut.budgetExceeded, elapsed + costOf u cd, [directCall cd])) := by
  constructor
  · intro hb
    have hnb : ¬ (budget < elapsed + costOf u cd) := Nat.not_lt.mpr hb
    simp [runCandidates, hfail, hnb]
  · intro hb
    simp [runCandidates, hfail, hb]

/-- Claim C5 witness: a network failure on a candidate advances the loop. -/
theorem lookup_failure_advances_w :
    runCandidates upstreamEmpty totalBudgetMs [candBar] 0
      = ((runCandidates upstreamEmpty totalBudgetMs []
            (0 + costOf upstreamEmpty candBar)).1,
         (runCandidates upstreamEmpty totalBudgetMs []
            (0 + costOf upstreamEmpty candBar)).2.1,
         directCall candBar :: (runCandidates upstreamEmpty totalBudgetMs []
            (0 + costOf upstreamEmpty candBar)).2.2) :=
  (lookup_failure_advances upstreamEmpty totalBudgetMs candBar [] 0
    { kind := FailKind.network } (by decide)).1 (by decide)

/-- Claim C6: the confidence scorer assigns low unconditionally to a search
match that came from the case-name hint, medium to a match from the
normalized citation string with a high first-result rank, and low in every
other case. -/
theorem score_search_fallback :
    score ResolutionPath.searchFromHint = Confidence.low
    ∧ score (ResolutionPath.searchFromCitation true) = Confidence.medium
    ∧ score (ResolutionPath.searchFromCitation false) = Confidence.low
    ∧ ∀ hi : Bool, score (ResolutionPath.searchFromCitation hi)
        = if hi then Confidence.medium else Confidence.low := by
  refine ⟨rfl, rfl, rfl, ?_⟩
  intro hi
  rfl

/-- Claim C7 counterexample: for the citation 410 Foo 999, whose reporter is
unrecognized and which carries no case-name fragment, a search term IS
derived — the normalized citation string — and against an upstream whose
full-text search matches that term, `ResolveCitation` returns
`search_result`, not `not_found`. -/
theorem unknown_reporter_search_hit :
    (ResolveCitation upstreamFooHit "410 Foo 999").status = Status.search_result
    ∧ (ResolveCitation upstreamFooHit "410 Foo 999").status ≠ Status.not_found
    ∧ (ResolveCitation upstreamFooHit "410 Foo 999").searchTerm = some "410 Foo 999" := by
  decide

/-- Claim C7 (amended): for every citation whose reporter is unrecognized and
that carries no case-name fragment, the search term is derived as the
normalized citation string (per the term-selection rule), and
`ResolveCitation` returns `status = not_found` in case the direct lookup of
the only (identity) candidate fails and the fallback search for that term
returns no results. -/
theorem resolve_unknown_reporter_not_found (u : Upstream) (raw : String) (c : Citation)
    (hnorm : normalize raw = Except.ok c)
    (hhint : c.caseNameHint = none)
    (hunknown : isKnownReporter c.reporter = false)
    (hfail : lookupFails u
      { cit := c, transformKind := TransformKind.identity, sourceRank := 0 } = true)
    (hsearch : u.search (canonicalCitation c) searchMaxResults = []) :
    (ResolveCitation u raw).status = Status.not_found := by
  have hexp := expand_unknown c hunknown
  have hterm : searchTermOf c = (canonicalCitation c, false) := by
    simp [searchTermOf, hhint]
  cases heq : lookupOf u
      { cit := c, transformKind := TransformKind.identity, sourceRank := 0 } with
  | ok op => simp [lookupFails, heq] at hfail
  | error f =>
    simp only [ResolveCitation, resolveWithTrace, hnorm, hexp]
    simp only [runCandidates, heq, Nat.zero_add]
    by_cases hb : totalBudgetMs < costOf u
        { cit := c, transformKind := TransformKind.identity, sourceRank := 0 }
    · simp [hb, notFoundResult]
    · simp [hb, runCandidates, hterm, hsearch, notFoundResult]

/-- Claim C7 amended witness: with a dead-data upstream the example citation
with unknown reporter and no case name resolves to not_found. -/
theorem resolve_unknown_reporter_not_found_w :
    (ResolveCitation upstreamEmpty "410 Foo 999").status = Status.not_found :=
  resolve_unknown_reporter_not_found upstreamEmpty "410 Foo 999" citFoo
    (by decide) (by decide) (by decide) (by decide) (by decide)

/-- Claim C8: a raw input beyond the 200-character length bound, or one
containing no digit at all, fails normalization: `ResolveCitation` returns
`not_found` and the engine issues zero network calls to the upstream. -/
theorem resolve_malformed_no_network (u : Upstream) (raw : String)
    (h : maxCitationLength < raw.length ∨ ∀ ch ∈ raw.data, ch.isDigit = false) :
    (ResolveCitation u raw).status = Status.not_found
    ∧ (resolveWithTrace u raw).2 = [] := by
  have herr : ∃ e, normalize raw = Except.error e := by
    rcases h with h1 | h2
    · exact ⟨InvalidCitationError.citationTooLong, by unfold normalize; rw [if_pos h1]⟩
    · exact normalize_noDigit raw h2
  rcases herr with ⟨e, he⟩
  constructor
  · simp [ResolveCitation, resolveWithTrace, he, notFoundResult]
  · simp [resolveWithTrace, he]

/-- Claim C8 witness: a digit-free input yields not_found with an empty
network trace. -/
theorem resolve_malformed_no_network_w :
    (ResolveCitation upstream1 "no digits here").status = Status.not_found
    ∧ (resolveWithTrace upstream1 "no digits here").2 = [] :=
  resolve_malformed_no_network upstream1 "no digits here" (Or.inr (by decide))

end LuxScribe

